import Mathlib

set_option maxHeartbeats 1000000

/-!
Verification development for the converter-mcp media conversion server.

The definitions below are a shallow embedding of the job concurrency and
progress-reporting subsystem: `src/converter/progress.py` (ProgressReporter),
`src/converter/async_utils.py` (safe_subprocess, ConcurrencyLimiter),
`src/converter/converters/router.py` (ConverterRouter.get_converter_type),
`src/converter/file_manager.py` (FileManager.resolve_output_path), the quality
preset tables of `converters/video.py` and `converters/image.py`, and the
quality validation of `server.py` (convert_file).

Modelling conventions: Python floats (times, progress values) are modelled as
ℚ; `time.monotonic()` readings are passed explicitly as a `now` parameter;
Python dicts are modelled as association lists; logging is modelled by a
boolean flag where a claim mentions it; exceptions are modelled by explicit
result constructors.
-/

/-! ## Progress reporter (src/converter/progress.py) -/

/-- `ProgressStage` enum: progress stages for conversion operations. -/
inductive ProgressStage where
  | init
  | processing
  | finalizing
  | complete
  | error
deriving DecidableEq, BEq, Repr

/-- `ProgressInfo` dataclass: progress information for one conversion job.
`start_time` holds the `time.monotonic()` value at creation. -/
structure ProgressInfo where
  job_id : String
  stage : ProgressStage
  progress : ℚ
  total : ℚ
  message : String
  start_time : ℚ
  metadata : List (String × String)
deriving DecidableEq, Repr

/-- `ProgressInfo.elapsed_seconds`: time elapsed since the job started,
with the current monotonic clock passed explicitly. -/
def ProgressInfo.elapsed_seconds (info : ProgressInfo) (now : ℚ) : ℚ :=
  now - info.start_time

/-- `ProgressInfo.percent_complete`: `0` when `total == 0`, otherwise
`min(100, progress / total * 100)`. -/
def ProgressInfo.percent_complete (info : ProgressInfo) : ℚ :=
  if info.total = 0 then 0 else min 100 ((info.progress / info.total) * 100)

/-- `ProgressInfo.is_complete`: the stage is `COMPLETE` or `ERROR`. -/
def ProgressInfo.is_complete (info : ProgressInfo) : Bool :=
  info.stage == ProgressStage.complete || info.stage == ProgressStage.error

/-- The reporter's active-job table `_active_jobs : dict[str, ProgressInfo]`,
modelled as an association list. -/
abbrev JobTable := List (String × ProgressInfo)

/-- Dict lookup `self._active_jobs.get(job_id)`. -/
def JobTable.getJob (jobs : JobTable) (job_id : String) : Option ProgressInfo :=
  List.lookup job_id jobs

/-- Dict store `self._active_jobs[job_id] = info`. -/
def JobTable.setJob (jobs : JobTable) (job_id : String) (info : ProgressInfo) : JobTable :=
  (job_id, info) :: List.filter (fun kv => kv.1 ≠ job_id) jobs

/-- Dict deletion `del self._active_jobs[job_id]`. -/
def JobTable.removeJob (jobs : JobTable) (job_id : String) : JobTable :=
  List.filter (fun kv => kv.1 ≠ job_id) jobs

/-- Python `dict.update`: existing keys are overwritten, fresh keys appended. -/
def dictUpdate (base upd : List (String × String)) : List (String × String) :=
  base.map (fun kv =>
    match List.lookup kv.1 upd with
    | some v => (kv.1, v)
    | none => kv) ++
  upd.filter (fun kv => (List.lookup kv.1 base).isNone)

/-- `ProgressReporter.MIN_PROGRESS_THRESHOLD = 1.0` second. -/
def ProgressReporter.MIN_PROGRESS_THRESHOLD : ℚ := 1

/-- `ProgressReporter._notify`: the notification delivered to the sinks, or
`none` when suppressed. Suppression condition from the source:
`info.elapsed_seconds < MIN_PROGRESS_THRESHOLD and not info.is_complete`. -/
def ProgressReporter.notify (now : ℚ) (info : ProgressInfo) : Option ProgressInfo :=
  if info.elapsed_seconds now < ProgressReporter.MIN_PROGRESS_THRESHOLD ∧
      ¬ info.is_complete then
    none
  else
    some info

/-- Result of one reporter operation: the returned `Optional[ProgressInfo]`,
the table after the call, the notification observed by the sinks (if any),
and whether an unknown-job warning was logged. -/
structure StepResult where
  result : Option ProgressInfo
  jobs : JobTable
  notified : Option ProgressInfo
  warned : Bool
deriving DecidableEq

/-- `ProgressReporter.start_job`: creates the record in stage `INIT` with
progress 0 and total 100, stores it, then notifies. -/
def ProgressReporter.start_job (now : ℚ) (jobs : JobTable) (job_id : String)
    (message : String) (metadata : List (String × String)) : StepResult :=
  let info : ProgressInfo :=
    { job_id := job_id
      stage := ProgressStage.init
      progress := 0
      total := 100
      message := message
      start_time := now
      metadata := metadata }
  { result := some info
    jobs := jobs.setJob job_id info
    notified := ProgressReporter.notify now info
    warned := false }

/-- `ProgressReporter.update_progress`: merges into the existing record;
unknown id logs a warning and returns `None` with the table unchanged. -/
def ProgressReporter.update_progress (now : ℚ) (jobs : JobTable) (job_id : String)
    (progress : ℚ) (stage : Option ProgressStage) (message : Option String)
    (metadata : Option (List (String × String))) : StepResult :=
  match jobs.getJob job_id with
  | none => { result := none, jobs := jobs, notified := none, warned := true }
  | some info =>
    let info := { info with progress := progress }
    let info := match stage with
      | some st => { info with stage := st }
      | none => info
    let info := match message with
      | some m => { info with message := m }
      | none => info
    let info := match metadata with
      | some md => { info with metadata := dictUpdate info.metadata md }
      | none => info
    { result := some info
      jobs := jobs.setJob job_id info
      notified := ProgressReporter.notify now info
      warned := false }

/-- `ProgressReporter.complete_job`: sets stage to `COMPLETE`/`ERROR`, sets
progress to the job's total, notifies, then removes the record. -/
def ProgressReporter.complete_job (now : ℚ) (jobs : JobTable) (job_id : String)
    (success : Bool) (message : Option String)
    (metadata : Option (List (String × String))) : StepResult :=
  match jobs.getJob job_id with
  | none => { result := none, jobs := jobs, notified := none, warned := true }
  | some info =>
    let info := { info with
      stage := if success then ProgressStage.complete else ProgressStage.error }
    let info := { info with progress := info.total }
    let info := { info with message :=
      match message with
      | some m => m
      | none => if success then "Conversion complete" else "Conversion failed" }
    let info := match metadata with
      | some md => { info with metadata := dictUpdate info.metadata md }
      | none => info
    { result := some info
      jobs := jobs.removeJob job_id
      notified := ProgressReporter.notify now info
      warned := false }

/-- `ProgressReporter.set_stage`: updates the stage (and optionally the
message) without touching the progress value; unknown id returns `None`. -/
def ProgressReporter.set_stage (now : ℚ) (jobs : JobTable) (job_id : String)
    (stage : ProgressStage) (message : Option String) : StepResult :=
  match jobs.getJob job_id with
  | none => { result := none, jobs := jobs, notified := none, warned := false }
  | some info =>
    let info := { info with stage := stage }
    let info := match message with
      | some m => { info with message := m }
      | none => info
    { result := some info
      jobs := jobs.setJob job_id info
      notified := ProgressReporter.notify now info
      warned := false }

/-- A call into the progress reporter, with the monotonic clock value at the
moment of the call. -/
inductive ReporterOp where
  | start (now : ℚ) (job_id message : String) (metadata : List (String × String))
  | update (now : ℚ) (job_id : String) (progress : ℚ) (stage : Option ProgressStage)
      (message : Option String) (metadata : Option (List (String × String)))
  | setStage (now : ℚ) (job_id : String) (stage : ProgressStage) (message : Option String)
  | complete (now : ℚ) (job_id : String) (success : Bool) (message : Option String)
      (metadata : Option (List (String × String)))

/-- Apply one reporter call to the active-job table. -/
def applyOp (op : ReporterOp) (jobs : JobTable) : StepResult :=
  match op with
  | ReporterOp.start now id msg md => ProgressReporter.start_job now jobs id msg md
  | ReporterOp.update now id p st msg md =>
      ProgressReporter.update_progress now jobs id p st msg md
  | ReporterOp.setStage now id st msg => ProgressReporter.set_stage now jobs id st msg
  | ReporterOp.complete now id ok msg md =>
      ProgressReporter.complete_job now jobs id ok msg md

/-- Run a sequence of reporter calls, collecting the notifications the sinks
observe, in order. -/
def runOps (ops : List ReporterOp) (jobs : JobTable) : JobTable × List ProgressInfo :=
  match ops with
  | [] => (jobs, [])
  | op :: rest =>
    let r := applyOp op jobs
    let tail := runOps rest r.jobs
    (tail.1, (r.notified.toList) ++ tail.2)

/-- The notifications for job `job_id` that are in a terminal stage. -/
def terminalNotifications (job_id : String) (notifs : List ProgressInfo) :
    List ProgressInfo :=
  notifs.filter (fun info => info.job_id == job_id && info.is_complete)

/-- The spec's table invariant: no job in the active-job table is in stage
`complete` or `error`. -/
def TableInvariant (jobs : JobTable) : Prop :=
  ∀ kv ∈ jobs, kv.2.stage ≠ ProgressStage.complete ∧ kv.2.stage ≠ ProgressStage.error

instance (jobs : JobTable) : Decidable (TableInvariant jobs) := by
  unfold TableInvariant
  exact List.decidableBAll _ jobs

/-- Table well-formedness: each record is stored under its own `job_id`.
This holds for every table built by the reporter operations. -/
def TableWF (jobs : JobTable) : Prop :=
  ∀ kv ∈ jobs, kv.2.job_id = kv.1

/-- All records in the table have the configured total 100 (the value
`start_job` always assigns; no operation ever changes `total`). -/
def TableTotals (jobs : JobTable) : Prop :=
  ∀ kv ∈ jobs, kv.2.total = 100

/-! ## Subprocess runner (src/converter/async_utils.py, safe_subprocess) -/

/-- An OS signal sent to the child process. `proc.terminate()` would send the
graceful `SIGTERM`; `proc.kill()` sends the forceful `SIGKILL`. -/
inductive ProcSignal where
  | sigterm
  | sigkill
deriving DecidableEq, Repr

/-- The behaviour of the spawned OS process relative to the call's deadlines:
whether it finishes before the wall-clock timeout, its exit code as exposed by
`proc.returncode` (`none` models Python `None`), its output streams, and
whether, after being killed on the timeout path, it is reaped within the
5-second wait. -/
structure ProcBehavior where
  finishesWithinTimeout : Bool
  returncode : Option Int
  stdout : String
  stderr : String
  exitsWithinGrace : Bool
deriving DecidableEq, Repr

/-- Result of `safe_subprocess`. `timedOut` records the list of signals the
runner sent to the child (in order), whether the 5-second post-kill
`wait_for(proc.wait())` expired (which is logged as a warning), and whether
the OS process had been reaped by the time `SubprocessTimeoutError` reached
the caller. -/
inductive SubprocessResult where
  | ok (returncode : Int) (stdout stderr : String)
  | subprocessError (cmd : List String) (returncode : Int) (stderr : String)
  | timedOut (cmd : List String) (timeout : Int) (signals : List ProcSignal)
      (graceWaitExpired : Bool) (reaped : Bool)
deriving DecidableEq, Repr

/-- `safe_subprocess(cmd, timeout, check_returncode, capture_output)` from
`async_utils.py`, as a function of the process behaviour. On the timeout path
the source calls `proc.kill()` immediately (never `proc.terminate()`), waits
up to 5 seconds for `proc.wait()`, logs a warning when that wait itself times
out, and raises `SubprocessTimeoutError(cmd, timeout)`; before the exception
propagates, the `finally` block runs an unbounded `await proc.wait()`
whenever the process has not yet been reaped, so the caller observes the
error only after the killed process has been reaped. On the normal path
`returncode = proc.returncode or 0`; the final check
`if check_returncode and returncode != 0` raises `SubprocessError` with the
captured stderr (empty when `capture_output` is false). -/
def safe_subprocess (cmd : List String) (timeout : Int)
    (check_returncode capture_output : Bool) (proc : ProcBehavior) :
    SubprocessResult :=
  if proc.finishesWithinTimeout then
    let returncode : Int := (proc.returncode.getD 0)
    let stdout_str := if capture_output then proc.stdout else ""
    let stderr_str := if capture_output then proc.stderr else ""
    if check_returncode ∧ returncode ≠ 0 then
      SubprocessResult.subprocessError cmd returncode stderr_str
    else
      SubprocessResult.ok returncode stdout_str stderr_str
  else
    SubprocessResult.timedOut cmd timeout [ProcSignal.sigkill]
      (!proc.exitsWithinGrace) true

/-! ## Concurrency limiter (src/converter/async_utils.py, ConcurrencyLimiter)

Within one event loop the limiter is an `asyncio.Semaphore(max_concurrent)`
shared by every converter (video, audio, image, ebook all enter
`async with concurrency_limiter`). The interleaved executions of N conversion
tasks against that one semaphore are modelled as a small-step transition
system: a task acquires a permit (possible only when the semaphore counter is
positive), runs its external work, then releases the permit. -/

/-- Phase of one conversion task with respect to the shared limiter. -/
inductive TaskPhase where
  | waiting
  | running
  | done
deriving DecidableEq, Repr

/-- Joint state: the semaphore counter plus the phase of every submitted
conversion task (all categories share the single global limiter). -/
structure LimiterState where
  counter : Nat
  tasks : List TaskPhase
deriving DecidableEq, Repr

/-- Initial state for capacity `K` and `N` submitted conversions: a fresh
`asyncio.Semaphore(K)` and all tasks waiting to acquire. -/
def LimiterState.initial (K N : Nat) : LimiterState :=
  { counter := K, tasks := List.replicate N TaskPhase.waiting }

/-- One scheduler step: `acquire` succeeds for a waiting task only when the
semaphore counter is positive (otherwise `sem.acquire()` suspends), and
`release` returns the permit when the task's `async with` block exits. -/
inductive LimiterStep : LimiterState → LimiterState → Prop where
  | acquire (s : LimiterState) (i : Nat) (hc : 0 < s.counter)
      (ht : s.tasks.get? i = some TaskPhase.waiting) :
      LimiterStep s { counter := s.counter - 1, tasks := s.tasks.set i TaskPhase.running }
  | release (s : LimiterState) (i : Nat)
      (ht : s.tasks.get? i = some TaskPhase.running) :
      LimiterStep s { counter := s.counter + 1, tasks := s.tasks.set i TaskPhase.done }

/-- States reachable from the initial state by any interleaving. -/
def LimiterReachable (K N : Nat) (s : LimiterState) : Prop :=
  Relation.ReflTransGen LimiterStep (LimiterState.initial K N) s

/-- Number of conversions simultaneously executing their external work. -/
def LimiterState.runningCount (s : LimiterState) : Nat :=
  (s.tasks.filter (fun t => t == TaskPhase.running)).length

/-! ## Python string primitives

`str.lower()` and `str.strip()` for the ASCII strings this system handles,
implemented over the character list so that they are kernel-computable. -/

/-- ASCII lowercasing of one character (`str.lower()` per character). -/
def lowerChar (c : Char) : Char :=
  if 'A' ≤ c ∧ c ≤ 'Z' then Char.ofNat (c.toNat + 32) else c

/-- Python `str.lower()`. -/
def pyLower (s : String) : String := ⟨s.data.map lowerChar⟩

/-- Python whitespace for `str.strip()`. -/
def isPySpace (c : Char) : Bool :=
  c = ' ' || c = '\t' || c = '\n' || c = '\r'

/-- Python `str.strip()`: drop whitespace from both ends. -/
def pyStrip (s : String) : String :=
  ⟨((s.data.dropWhile isPySpace).reverse.dropWhile isPySpace).reverse⟩

/-! ## Format router (src/converter/converters/router.py and the
SUPPORTED_INPUT_FORMATS / SUPPORTED_OUTPUT_FORMATS sets of the four
converter modules) -/

/-- `image.SUPPORTED_INPUT_FORMATS`. -/
def IMG_IN : List String :=
  ["jpg", "jpeg", "png", "gif", "webp", "tiff", "tif", "bmp", "svg"]

/-- `image.SUPPORTED_OUTPUT_FORMATS` (no `svg`, no `tif`). -/
def IMG_OUT : List String :=
  ["jpg", "jpeg", "png", "gif", "webp", "tiff", "bmp"]

/-- `video.SUPPORTED_INPUT_FORMATS`. -/
def VID_IN : List String :=
  ["mp4", "avi", "mov", "webm", "mkv", "wmv", "flv", "m4v"]

/-- `video.SUPPORTED_OUTPUT_FORMATS`. -/
def VID_OUT : List String :=
  ["mp4", "avi", "mov", "webm", "mkv"]

/-- `audio.SUPPORTED_INPUT_FORMATS`. -/
def AUD_IN : List String :=
  ["mp3", "wav", "flac", "aac", "ogg", "m4a", "wma", "aiff"]

/-- `audio.SUPPORTED_OUTPUT_FORMATS`. -/
def AUD_OUT : List String :=
  ["mp3", "wav", "flac", "aac", "ogg", "m4a"]

/-- `ebook.SUPPORTED_INPUT_FORMATS`. -/
def EBOOK_IN : List String :=
  ["epub", "pdf", "mobi", "azw", "azw3", "txt", "rtf", "html", "docx"]

/-- `ebook.SUPPORTED_OUTPUT_FORMATS`. -/
def EBOOK_OUT : List String :=
  ["epub", "pdf", "mobi", "azw3", "txt"]

/-- Result of `ConverterRouter.get_converter_type`: a converter category, or
the raised `FormatNotSupportedError`. -/
inductive RouteResult where
  | category (name : String)
  | formatNotSupported
deriving DecidableEq, Repr

/-- `ConverterRouter.get_converter_type`, transcribed clause by clause from
the source: lowercase both formats, then test the five membership rules in
order, raising `FormatNotSupportedError` when none matches. -/
def get_converter_type (source_format target_format : String) : RouteResult :=
  let src := pyLower source_format
  let tgt := pyLower target_format
  if src ∈ IMG_IN ∧ tgt ∈ IMG_OUT then RouteResult.category "image"
  else if src ∈ VID_IN ∧ tgt ∈ VID_OUT then RouteResult.category "video"
  else if src ∈ VID_IN ∧ tgt ∈ AUD_OUT then RouteResult.category "video"
  else if src ∈ AUD_IN ∧ tgt ∈ AUD_OUT then RouteResult.category "audio"
  else if src ∈ EBOOK_IN ∧ tgt ∈ EBOOK_OUT then RouteResult.category "ebook"
  else RouteResult.formatNotSupported

/-- The routing rule as the specification words it: image if both formats are
in the image sets; video if both are in the video sets OR the source is a
video input format and the target an audio output format; audio if both are
in the audio sets; ebook if both are in the ebook sets; otherwise
unsupported. Evaluated in that order, first match wins. -/
def spec_route (source_format target_format : String) : RouteResult :=
  let src := pyLower source_format
  let tgt := pyLower target_format
  if src ∈ IMG_IN ∧ tgt ∈ IMG_OUT then RouteResult.category "image"
  else if (src ∈ VID_IN ∧ tgt ∈ VID_OUT) ∨ (src ∈ VID_IN ∧ tgt ∈ AUD_OUT) then
    RouteResult.category "video"
  else if src ∈ AUD_IN ∧ tgt ∈ AUD_OUT then RouteResult.category "audio"
  else if src ∈ EBOOK_IN ∧ tgt ∈ EBOOK_OUT then RouteResult.category "ebook"
  else RouteResult.formatNotSupported

/-! ## File manager (src/converter/file_manager.py, resolve_output_path) -/

/-- Result of `FileManager.resolve_output_path`: a resolved output file name
within the chosen directory, or the raised `FileOperationError`. -/
inductive ResolveResult where
  | ok (dir : String) (name : String)
  | fileOperationError (message : String)
deriving DecidableEq, Repr

/-- The collision loop of `resolve_output_path`: starting at `counter`, try
`{stem}_{counter}.{fmt}`; on a miss return it, otherwise increment and fail
once the counter exceeds 1000. `fuel` bounds the recursion; the caller
supplies enough fuel for counters up to 1000. `ex` is the file-existence
predicate for names within the output directory. -/
def findAvailableName (ex : String → Bool) (stem fmt : String) :
    Nat → Nat → Option String
  | _, 0 => none
  | counter, fuel + 1 =>
    let name := stem ++ "_" ++ toString counter ++ "." ++ fmt
    if ex name = false then some name
    else if counter + 1 > 1000 then none
    else findAvailableName ex stem fmt (counter + 1) fuel

/-- `FileManager.resolve_output_path`, with the filesystem abstracted as the
existence predicate `ex` over file names in the output directory. The source
first validates the source path and the target format, picks
`self.output_dir` or the source file's parent directory, lowercases and trims
the format, then applies collision handling: base name `{stem}.{fmt}`, then
`{stem}_1.{fmt}`, `{stem}_2.{fmt}`, …, failing with `FileOperationError`
after the counter passes 1000. -/
def resolve_output_path (output_dir : Option String) (source_parent : String)
    (source_stem : String) (source_exists source_is_file : Bool)
    (target_format : String) (ex : String → Bool) : ResolveResult :=
  if source_exists = false then
    ResolveResult.fileOperationError "Source file does not exist"
  else if source_is_file = false then
    ResolveResult.fileOperationError "Source path is not a file"
  else
    let out_dir := match output_dir with
      | some d => d
      | none => source_parent
    if target_format = "" then
      ResolveResult.fileOperationError "Target format must be a non-empty string"
    else
      let fmt := pyStrip (pyLower target_format)
      if fmt = "" then
        ResolveResult.fileOperationError "Target format cannot be empty or whitespace"
      else
        let base := source_stem ++ "." ++ fmt
        if ex base = false then ResolveResult.ok out_dir base
        else
          match findAvailableName ex source_stem fmt 1 1000 with
          | some name => ResolveResult.ok out_dir name
          | none => ResolveResult.fileOperationError "Too many file collisions"

/-! ## Quality presets (converters/video.py, converters/image.py, server.py) -/

/-- `video.QUALITY_PRESETS`: CRF and encoder preset per quality name. -/
def VIDEO_QUALITY_PRESETS : List (String × (String × String)) :=
  [("low", ("28", "faster")),
   ("medium", ("23", "medium")),
   ("high", ("18", "slow"))]

/-- The preset lookup in `VideoConverter.convert`:
`QUALITY_PRESETS.get(quality, QUALITY_PRESETS["medium"])`. -/
def videoPreset (quality : String) : String × String :=
  (List.lookup quality VIDEO_QUALITY_PRESETS).getD ("23", "medium")

/-- `image.QUALITY_PRESETS`: numeric quality per quality name. -/
def IMAGE_QUALITY_PRESETS : List (String × Nat) :=
  [("low", 60), ("medium", 85), ("high", 95)]

/-- `ImageConverter._resolve_quality` restricted to string arguments:
`QUALITY_PRESETS.get(quality.lower(), QUALITY_PRESETS["medium"])`. -/
def image_resolve_quality (quality : String) : Nat :=
  (List.lookup (pyLower quality) IMAGE_QUALITY_PRESETS).getD 85

/-- The quality validation in `server.py`'s `convert_file`:
`quality not in ["low", "medium", "high"]` raises `ValueError`. `true` means
the quality string is accepted by the invocation surface. -/
def convert_file_quality_ok (quality : String) : Bool :=
  quality ∈ ["low", "medium", "high"]

/-- No record stored under `job_id` is in a terminal stage. -/
def NonTerminalAt (jobs : JobTable) (job_id : String) : Prop :=
  ∀ info, jobs.getJob job_id = some info → info.is_complete = false

/-- A reporter call is benign for `job_id` when it neither completes that job
nor forces a terminal stage onto it through `update_progress`/`set_stage`.
(`start_job` is always benign: it writes stage `INIT`.) -/
def benignFor (job_id : String) : ReporterOp → Bool
  | ReporterOp.start _ _ _ _ => true
  | ReporterOp.update _ id _ st _ _ =>
      id != job_id ||
        (match st with
         | none => true
         | some s => !(s == ProgressStage.complete || s == ProgressStage.error))
  | ReporterOp.setStage _ id s _ =>
      id != job_id || !(s == ProgressStage.complete || s == ProgressStage.error)
  | ReporterOp.complete _ id _ _ _ => id != job_id

/-- The `k`-th collision-avoidance candidate `{stem}_{k}.{fmt}`. -/
def nameAt (stem fmt : String) (k : Nat) : String :=
  stem ++ "_" ++ toString k ++ "." ++ fmt

/-! ## Helper lemmas -/

theorem lookup_mem {α β : Type} [DecidableEq α] {l : List (α × β)} {k : α} {v : β}
    (h : List.lookup k l = some v) : (k, v) ∈ l := by
  induction l with
  | nil => simp [List.lookup] at h
  | cons kv rest ih =>
    obtain ⟨k', b⟩ := kv
    rw [List.lookup_cons] at h
    cases hbe : (k == k') with
    | true =>
      rw [hbe] at h
      have hk : k = k' := by simpa using hbe
      have hv : b = v := by simpa using h
      subst hk; subst hv
      exact List.mem_cons_self _ _
    | false =>
      rw [hbe] at h
      exact List.mem_cons_of_mem _ (ih h)

theorem lookup_filter_ne {β : Type} {l : List (String × β)} {id id' : String}
    (h : id ≠ id') :
    List.lookup id (l.filter (fun kv => kv.1 ≠ id')) = List.lookup id l := by
  induction l with
  | nil => rfl
  | cons kv rest ih =>
    obtain ⟨k, b⟩ := kv
    by_cases hk : k = id'
    · subst hk
      rw [List.filter_cons, if_neg (by simp)]
      rw [List.lookup_cons, beq_false_of_ne h]
      exact ih
    · rw [List.filter_cons, if_pos (by simp [hk])]
      rw [List.lookup_cons, List.lookup_cons]
      cases hbe : (id == k) with
      | true => rfl
      | false => exact ih

theorem getJob_setJob_self (jobs : JobTable) (id : String) (info : ProgressInfo) :
    (jobs.setJob id info).getJob id = some info := by
  simp [JobTable.setJob, JobTable.getJob, List.lookup_cons]

theorem getJob_setJob_ne (jobs : JobTable) {id id' : String} (info : ProgressInfo)
    (h : id ≠ id') :
    (jobs.setJob id' info).getJob id = jobs.getJob id := by
  show List.lookup id ((id', info) :: _) = _
  rw [List.lookup_cons, beq_false_of_ne h]
  exact lookup_filter_ne h

theorem getJob_removeJob_self (jobs : JobTable) (id : String) :
    (jobs.removeJob id).getJob id = none := by
  induction jobs with
  | nil => rfl
  | cons kv rest ih =>
    obtain ⟨k, b⟩ := kv
    by_cases hk : k = id
    · subst hk
      show List.lookup k (List.filter _ ((k, b) :: rest)) = none
      rw [List.filter_cons, if_neg (by simp)]
      exact ih
    · show List.lookup id (List.filter _ ((k, b) :: rest)) = none
      rw [List.filter_cons, if_pos (by simp [hk])]
      rw [List.lookup_cons, beq_false_of_ne (fun he => hk he.symm)]
      exact ih

theorem getJob_removeJob_ne (jobs : JobTable) {id id' : String} (h : id ≠ id') :
    (jobs.removeJob id').getJob id = jobs.getJob id :=
  lookup_filter_ne h

theorem mem_setJob {jobs : JobTable} {id : String} {info : ProgressInfo} {kv}
    (h : kv ∈ jobs.setJob id info) : kv = (id, info) ∨ kv ∈ jobs := by
  rcases List.mem_cons.mp h with h1 | h2
  · exact Or.inl h1
  · exact Or.inr (List.mem_of_mem_filter h2)

theorem mem_removeJob {jobs : JobTable} {id : String} {kv}
    (h : kv ∈ jobs.removeJob id) : kv ∈ jobs :=
  List.mem_of_mem_filter h

/-! ## Claim theorems -/

/-- C2 (counterexample): at the concrete input `sleep 60` with a 1-second
timeout and a process that does not finish in time, the runner's only
signal is the forceful `SIGKILL`, sent immediately — no graceful-terminate
signal is sent first and the kill is not an escalation after a 5-second
grace window. This refutes the claimed signal sequence; the raised
`SubprocessTimeoutError{command, timeout}` and the reaped-before-return
behaviour hold as claimed. -/
theorem c2_counterexample :
    safe_subprocess ["sleep", "60"] 1 true true
        ⟨false, none, "", "", false⟩ =
      SubprocessResult.timedOut ["sleep", "60"] 1 [ProcSignal.sigkill] true true ∧
    ProcSignal.sigkill ≠ ProcSignal.sigterm := by
  exact ⟨rfl, by decide⟩

/-- C2 (amended): whenever the wall-clock timeout fires before the process
exits, `safe_subprocess` immediately sends a forceful kill (`proc.kill()`;
no graceful terminate, no escalation), waits up to 5 seconds for the
process to be reaped — logging a warning when that wait expires — and
raises `SubprocessTimeoutError` carrying the command and the timeout value;
the call does not return until the OS process has been reaped (the
`finally` block awaits the killed process without bound before the
exception reaches the caller). -/
theorem c2_timeout_kill (cmd : List String) (t : Int) (chk cap : Bool)
    (proc : ProcBehavior) (h : proc.finishesWithinTimeout = false) :
    safe_subprocess cmd t chk cap proc =
      SubprocessResult.timedOut cmd t [ProcSignal.sigkill]
        (!proc.exitsWithinGrace) true := by
  unfold safe_subprocess
  rw [h]
  rfl

/-- C2 witness: the amended timeout behaviour at a concrete input (process
reaped within the 5-second wait, so no warning, and reaped on return). -/
theorem c2_timeout_kill_witness :
    safe_subprocess ["ffmpeg", "-i", "in.mp4"] 3600 true true
        ⟨false, none, "", "", true⟩ =
      SubprocessResult.timedOut ["ffmpeg", "-i", "in.mp4"] 3600
        [ProcSignal.sigkill] false true :=
  c2_timeout_kill ["ffmpeg", "-i", "in.mp4"] 3600 true true
    ⟨false, none, "", "", true⟩ rfl

/-- C5: `update_progress` on a job id absent from the active-job table
(never started, or already completed and removed) logs a warning, returns
`None` ("not found"), does not raise, and leaves the active-job table
unchanged. -/
theorem c5_update_unknown_job (now : ℚ) (jobs : JobTable) (job_id : String)
    (p : ℚ) (st : Option ProgressStage) (msg : Option String)
    (md : Option (List (String × String))) (h : jobs.getJob job_id = none) :
    ProgressReporter.update_progress now jobs job_id p st msg md =
      { result := none, jobs := jobs, notified := none, warned := true } := by
  unfold ProgressReporter.update_progress
  rw [h]

/-- C5 witness: an update for a never-started job id on the empty table. -/
theorem c5_update_unknown_job_witness :
    ProgressReporter.update_progress 7 [] "ghost" 50 none none none =
      { result := none, jobs := [], notified := none, warned := true } :=
  c5_update_unknown_job 7 [] "ghost" 50 none none none rfl

/-- C6 (counterexample): with `capture_output = False`, a non-zero exit code
and return-code checking enabled, `safe_subprocess` still raises
`SubprocessError` (with an empty stderr tail), refuting the claim that
`SubprocessError` is raised only when `capture_output` was requested. -/
theorem c6_counterexample :
    safe_subprocess ["ffmpeg"] 10 true false ⟨true, some 1, "out", "err", true⟩ =
      SubprocessResult.subprocessError ["ffmpeg"] 1 "" := by
  rfl

/-- C6 (amended): for a process that exits within the timeout,
`safe_subprocess` raises `SubprocessError` carrying the command, the exit
code and the captured stderr exactly when the exit code
(`proc.returncode or 0`) is non-zero and return-code checking is enabled —
independent of `capture_output`; when `capture_output` is false the stderr
tail it carries is empty. -/
theorem c6_subprocess_error_iff (cmd : List String) (t : Int) (chk cap : Bool)
    (proc : ProcBehavior) (h : proc.finishesWithinTimeout = true) :
    ((∃ rc se, safe_subprocess cmd t chk cap proc =
        SubprocessResult.subprocessError cmd rc se) ↔
      chk = true ∧ proc.returncode.getD 0 ≠ 0) ∧
    (chk = true → proc.returncode.getD 0 ≠ 0 →
      safe_subprocess cmd t chk cap proc =
        SubprocessResult.subprocessError cmd (proc.returncode.getD 0)
          (if cap then proc.stderr else "")) := by
  constructor
  · constructor
    · rintro ⟨rc, se, hres⟩
      by_cases hc : chk = true ∧ proc.returncode.getD 0 ≠ 0
      · exact hc
      · simp [safe_subprocess, h, hc] at hres
    · rintro ⟨h1, h2⟩
      refine ⟨proc.returncode.getD 0, if cap then proc.stderr else "", ?_⟩
      simp [safe_subprocess, h, h1, h2]
  · intro h1 h2
    simp [safe_subprocess, h, h1, h2]

/-- C6 witness: the amended error condition at a concrete input with
`capture_output = true`. -/
theorem c6_subprocess_error_iff_witness :
    ((∃ rc se, safe_subprocess ["ebook-convert", "a.epub"] 600 true true
        ⟨true, some 2, "", "boom", true⟩ =
        SubprocessResult.subprocessError ["ebook-convert", "a.epub"] rc se) ↔
      true = true ∧ (Option.getD (some (2 : Int)) 0) ≠ 0) ∧
    (true = true → (Option.getD (some (2 : Int)) 0) ≠ 0 →
      safe_subprocess ["ebook-convert", "a.epub"] 600 true true
        ⟨true, some 2, "", "boom", true⟩ =
        SubprocessResult.subprocessError ["ebook-convert", "a.epub"]
          (Option.getD (some (2 : Int)) 0) (if true then "boom" else "")) :=
  c6_subprocess_error_iff ["ebook-convert", "a.epub"] 600 true true
    ⟨true, some 2, "", "boom", true⟩ rfl

/-- C7: `get_converter_type` evaluates its rules in order and agrees with
the specification's resolution rule (image; video — including video-input
to audio-output extraction; audio; ebook; otherwise
`FormatNotSupportedError`). In particular `(mp4, mp3)` routes to `video`,
not `audio`, and `(jpg, svg)` is unsupported because `svg` is not an image
output format. -/
theorem c7_router_rules :
    (∀ s t, get_converter_type s t = spec_route s t) ∧
    get_converter_type "mp4" "mp3" = RouteResult.category "video" ∧
    get_converter_type "jpg" "svg" = RouteResult.formatNotSupported ∧
    "svg" ∉ IMG_OUT := by
  refine ⟨?_, by decide, by decide, by decide⟩
  intro s t
  unfold get_converter_type spec_route
  dsimp only
  split_ifs <;> tauto

/-- C10 (counterexample): the quality string `"LOW"` is not one of
`low`/`medium`/`high` (the exact strings the `convert_file` invocation
surface checks — `convert_file_quality_ok "LOW" = false`), yet
`ImageConverter._resolve_quality` does not fall back to the medium numeric
value 85: its `quality.lower()` lookup resolves `"LOW"` to the low preset
value 60. -/
theorem c10_counterexample :
    "LOW" ∉ ["low", "medium", "high"] ∧
    convert_file_quality_ok "LOW" = false ∧
    image_resolve_quality "LOW" = 60 ∧
    image_resolve_quality "LOW" ≠ 85 := by
  refine ⟨by decide, by decide, by decide, by decide⟩

/-- C10 (amended): the converter layer never fails on an unrecognised
quality string. `VideoConverter.convert` falls back to the medium preset
for every quality string that is not exactly one of `low`/`medium`/`high`;
`ImageConverter`'s quality resolution first lowercases, so it falls back to
the medium numeric value 85 exactly for strings whose lowercasing is not
one of the three presets (uppercase variants of valid presets resolve to
that preset's value instead). The `low|medium|high` restriction itself is
enforced only by `convert_file` in the server layer. -/
theorem c10_quality_fallback (q : String) :
    (q ∉ (["low", "medium", "high"] : List String) →
      videoPreset q = ("23", "medium") ∧ convert_file_quality_ok q = false) ∧
    (pyLower q ∉ (["low", "medium", "high"] : List String) →
      image_resolve_quality q = 85) := by
  constructor
  · intro hq
    have h1 : q ≠ "low" := by intro he; exact hq (by simp [he])
    have h2 : q ≠ "medium" := by intro he; exact hq (by simp [he])
    have h3 : q ≠ "high" := by intro he; exact hq (by simp [he])
    constructor
    · simp [videoPreset, VIDEO_QUALITY_PRESETS, List.lookup_cons,
        beq_false_of_ne h1, beq_false_of_ne h2, beq_false_of_ne h3, List.lookup]
    · simp [convert_file_quality_ok, h1, h2, h3]
  · intro hq
    have h1 : pyLower q ≠ "low" := by intro he; exact hq (by simp [he])
    have h2 : pyLower q ≠ "medium" := by intro he; exact hq (by simp [he])
    have h3 : pyLower q ≠ "high" := by intro he; exact hq (by simp [he])
    simp [image_resolve_quality, IMAGE_QUALITY_PRESETS, List.lookup_cons,
      beq_false_of_ne h1, beq_false_of_ne h2, beq_false_of_ne h3, List.lookup]

/-- C10 witness: the amended fallback at the concrete invalid quality
`"extreme"`. -/
theorem c10_quality_fallback_witness :
    ("extreme" : String) ∉ (["low", "medium", "high"] : List String) ∧
    (videoPreset "extreme" = ("23", "medium") ∧
      convert_file_quality_ok "extreme" = false) ∧
    image_resolve_quality "extreme" = 85 :=
  ⟨by decide, (c10_quality_fallback "extreme").1 (by decide),
    (c10_quality_fallback "extreme").2 (by decide)⟩

theorem getJob_mem {jobs : JobTable} {id : String} {info : ProgressInfo}
    (h : jobs.getJob id = some info) : (id, info) ∈ jobs := by
  unfold JobTable.getJob at h
  exact lookup_mem h

/-- Shape of `update_progress` on a known job: the stored record keeps the
job id and total, and its stage is the requested one (or unchanged). -/
theorem update_progress_eq (now : ℚ) (jobs : JobTable) (id : String) (p : ℚ)
    (st : Option ProgressStage) (msg : Option String)
    (md : Option (List (String × String))) (info : ProgressInfo)
    (hj : jobs.getJob id = some info) :
    ∃ info', ProgressReporter.update_progress now jobs id p st msg md =
      { result := some info', jobs := jobs.setJob id info',
        notified := ProgressReporter.notify now info', warned := false } ∧
      info'.stage = (match st with | some s => s | none => info.stage) ∧
      info'.job_id = info.job_id ∧ info'.total = info.total := by
  unfold ProgressReporter.update_progress
  rw [hj]
  cases st <;> cases msg <;> cases md <;> exact ⟨_, rfl, rfl, rfl, rfl⟩

/-- Shape of `set_stage` on a known job. -/
theorem set_stage_eq (now : ℚ) (jobs : JobTable) (id : String)
    (stage : ProgressStage) (msg : Option String) (info : ProgressInfo)
    (hj : jobs.getJob id = some info) :
    ∃ info', ProgressReporter.set_stage now jobs id stage msg =
      { result := some info', jobs := jobs.setJob id info',
        notified := ProgressReporter.notify now info', warned := false } ∧
      info'.stage = stage ∧ info'.job_id = info.job_id ∧
      info'.total = info.total := by
  unfold ProgressReporter.set_stage
  rw [hj]
  cases msg <;> exact ⟨_, rfl, rfl, rfl, rfl⟩

/-- Shape of `complete_job` on a known job: terminal stage, progress set to
the total, record removed. -/
theorem complete_job_eq (now : ℚ) (jobs : JobTable) (id : String)
    (success : Bool) (msg : Option String)
    (md : Option (List (String × String))) (info : ProgressInfo)
    (hj : jobs.getJob id = some info) :
    ∃ info', ProgressReporter.complete_job now jobs id success msg md =
      { result := some info', jobs := jobs.removeJob id,
        notified := ProgressReporter.notify now info', warned := false } ∧
      info'.stage = (if success then ProgressStage.complete else ProgressStage.error) ∧
      info'.progress = info.total ∧ info'.total = info.total ∧
      info'.job_id = info.job_id := by
  unfold ProgressReporter.complete_job
  rw [hj]
  cases success <;> cases msg <;> cases md <;> exact ⟨_, rfl, rfl, rfl, rfl, rfl⟩

/-- Shape of `update_progress` / `set_stage` / `complete_job` on an unknown
job: nothing happens. -/
theorem set_stage_unknown (now : ℚ) (jobs : JobTable) (id : String)
    (stage : ProgressStage) (msg : Option String) (hj : jobs.getJob id = none) :
    ProgressReporter.set_stage now jobs id stage msg =
      { result := none, jobs := jobs, notified := none, warned := false } := by
  unfold ProgressReporter.set_stage
  rw [hj]

theorem complete_job_unknown (now : ℚ) (jobs : JobTable) (id : String)
    (success : Bool) (msg : Option String)
    (md : Option (List (String × String))) (hj : jobs.getJob id = none) :
    ProgressReporter.complete_job now jobs id success msg md =
      { result := none, jobs := jobs, notified := none, warned := true } := by
  unfold ProgressReporter.complete_job
  rw [hj]

/-- C1 (counterexample): starting a job and then calling
`set_stage(job, COMPLETE)` leaves the job in the active-job table with a
terminal stage and does not remove it, so the claimed invariant is not
preserved by every operation. -/
theorem c1_counterexample :
    TableInvariant (ProgressReporter.start_job 0 [] "j" "m" []).jobs ∧
    ¬ TableInvariant
      (ProgressReporter.set_stage 0 (ProgressReporter.start_job 0 [] "j" "m" []).jobs
        "j" ProgressStage.complete none).jobs := by
  refine ⟨by decide, by decide⟩

/-- C1 (amended): the invariant — no job in the active-job table is in
stage `complete` or `error` — is preserved by `start_job`, by
`update_progress` and `set_stage` whenever the stage they install is
non-terminal, and by `complete_job`, which is also the only operation that
removes the record: immediately after `complete_job(id, ...)` (the final
notification having been sent first) the id is absent from the table.
`set_stage`/`update_progress` called with a terminal stage, however, leave
the job in the table in that terminal stage. -/
theorem c1_invariant_preservation :
    (∀ (now : ℚ) (jobs : JobTable) id msg md, TableInvariant jobs →
      TableInvariant (ProgressReporter.start_job now jobs id msg md).jobs) ∧
    (∀ (now : ℚ) (jobs : JobTable) id p st msg md, TableInvariant jobs →
      (∀ s, st = some s → s ≠ ProgressStage.complete ∧ s ≠ ProgressStage.error) →
      TableInvariant (ProgressReporter.update_progress now jobs id p st msg md).jobs) ∧
    (∀ (now : ℚ) (jobs : JobTable) id s msg, TableInvariant jobs →
      s ≠ ProgressStage.complete → s ≠ ProgressStage.error →
      TableInvariant (ProgressReporter.set_stage now jobs id s msg).jobs) ∧
    (∀ (now : ℚ) (jobs : JobTable) id success msg md, TableInvariant jobs →
      TableInvariant (ProgressReporter.complete_job now jobs id success msg md).jobs ∧
      (ProgressReporter.complete_job now jobs id success msg md).jobs.getJob id = none) := by
  refine ⟨?_, ?_, ?_, ?_⟩
  · intro now jobs id msg md hinv kv hkv
    rcases mem_setJob hkv with h1 | h2
    · subst h1; exact ⟨by simp, by simp⟩
    · exact hinv kv h2
  · intro now jobs id p st msg md hinv hst
    cases hj : jobs.getJob id with
    | none =>
      rw [c5_update_unknown_job now jobs id p st msg md hj]
      exact hinv
    | some info =>
      obtain ⟨info', heq, hstage, hjid, htot⟩ :=
        update_progress_eq now jobs id p st msg md info hj
      rw [heq]
      intro kv hkv
      rcases mem_setJob hkv with h1 | h2
      · subst h1
        show info'.stage ≠ _ ∧ info'.stage ≠ _
        rw [hstage]
        cases st with
        | some s => exact hst s rfl
        | none => exact hinv (id, info) (getJob_mem hj)
      · exact hinv kv h2
  · intro now jobs id s msg hinv hs1 hs2
    cases hj : jobs.getJob id with
    | none =>
      rw [set_stage_unknown now jobs id s msg hj]
      exact hinv
    | some info =>
      obtain ⟨info', heq, hstage, hjid, htot⟩ := set_stage_eq now jobs id s msg info hj
      rw [heq]
      intro kv hkv
      rcases mem_setJob hkv with h1 | h2
      · subst h1
        show info'.stage ≠ _ ∧ info'.stage ≠ _
        rw [hstage]
        exact ⟨hs1, hs2⟩
      · exact hinv kv h2
  · intro now jobs id success msg md hinv
    cases hj : jobs.getJob id with
    | none =>
      rw [complete_job_unknown now jobs id success msg md hj]
      exact ⟨hinv, hj⟩
    | some info =>
      obtain ⟨info', heq, hstage, hprog, htot, hjid⟩ :=
        complete_job_eq now jobs id success msg md info hj
      rw [heq]
      constructor
      · intro kv hkv
        exact hinv kv (mem_removeJob hkv)
      · exact getJob_removeJob_self jobs id

/-- C1 witness: the amended preservation statements at concrete inputs
(`set_stage` to the non-terminal `finalizing` stage, and a `complete_job`
that removes the record). -/
theorem c1_invariant_preservation_witness :
    TableInvariant [("j", ⟨"j", ProgressStage.processing, 40, 100, "m", 0, []⟩)] ∧
    TableInvariant (ProgressReporter.set_stage 2
      [("j", ⟨"j", ProgressStage.processing, 40, 100, "m", 0, []⟩)]
      "j" ProgressStage.finalizing none).jobs ∧
    TableInvariant (ProgressReporter.complete_job 2
      [("j", ⟨"j", ProgressStage.processing, 40, 100, "m", 0, []⟩)]
      "j" true none none).jobs ∧
    (ProgressReporter.complete_job 2
      [("j", ⟨"j", ProgressStage.processing, 40, 100, "m", 0, []⟩)]
      "j" true none none).jobs.getJob "j" = none :=
  ⟨by decide,
   c1_invariant_preservation.2.2.1 2
     [("j", ⟨"j", ProgressStage.processing, 40, 100, "m", 0, []⟩)]
     "j" ProgressStage.finalizing none (by decide) (by decide) (by decide),
   (c1_invariant_preservation.2.2.2 2
     [("j", ⟨"j", ProgressStage.processing, 40, 100, "m", 0, []⟩)]
     "j" true none none (by decide)).1,
   (c1_invariant_preservation.2.2.2 2
     [("j", ⟨"j", ProgressStage.processing, 40, 100, "m", 0, []⟩)]
     "j" true none none (by decide)).2⟩

/-- No reporter operation ever changes a stored record's `total`: every
record in a table reachable from a given one keeps total 100 once all
records have it (and `start_job` always installs total 100). -/
theorem applyOp_totals (op : ReporterOp) (jobs : JobTable) (h : TableTotals jobs) :
    TableTotals (applyOp op jobs).jobs := by
  cases op with
  | start now id msg md =>
    intro kv hkv
    rcases mem_setJob hkv with h1 | h2
    · subst h1; rfl
    · exact h kv h2
  | update now id p st msg md =>
    cases hj : jobs.getJob id with
    | none =>
      show TableTotals (ProgressReporter.update_progress now jobs id p st msg md).jobs
      rw [c5_update_unknown_job now jobs id p st msg md hj]
      exact h
    | some info =>
      obtain ⟨info', heq, hstage, hjid, htot⟩ :=
        update_progress_eq now jobs id p st msg md info hj
      show TableTotals (ProgressReporter.update_progress now jobs id p st msg md).jobs
      rw [heq]
      intro kv hkv
      rcases mem_setJob hkv with h1 | h2
      · subst h1
        show info'.total = 100
        rw [htot]
        exact h (id, info) (getJob_mem hj)
      · exact h kv h2
  | setStage now id s msg =>
    cases hj : jobs.getJob id with
    | none =>
      show TableTotals (ProgressReporter.set_stage now jobs id s msg).jobs
      rw [set_stage_unknown now jobs id s msg hj]
      exact h
    | some info =>
      obtain ⟨info', heq, hstage, hjid, htot⟩ := set_stage_eq now jobs id s msg info hj
      show TableTotals (ProgressReporter.set_stage now jobs id s msg).jobs
      rw [heq]
      intro kv hkv
      rcases mem_setJob hkv with h1 | h2
      · subst h1
        show info'.total = 100
        rw [htot]
        exact h (id, info) (getJob_mem hj)
      · exact h kv h2
  | complete now id success msg md =>
    cases hj : jobs.getJob id with
    | none =>
      show TableTotals (ProgressReporter.complete_job now jobs id success msg md).jobs
      rw [complete_job_unknown now jobs id success msg md hj]
      exact h
    | some info =>
      obtain ⟨info', heq, hstage, hprog, htot, hjid⟩ :=
        complete_job_eq now jobs id success msg md info hj
      show TableTotals (ProgressReporter.complete_job now jobs id success msg md).jobs
      rw [heq]
      intro kv hkv
      exact h kv (mem_removeJob hkv)

theorem runOps_totals (ops : List ReporterOp) (jobs : JobTable)
    (h : TableTotals jobs) : TableTotals (runOps ops jobs).1 := by
  induction ops generalizing jobs with
  | nil => exact h
  | cons op rest ih => exact ih (applyOp op jobs).jobs (applyOp_totals op jobs h)

/-- Terminal records always pass the notification filter. -/
theorem notify_of_terminal (now : ℚ) (info : ProgressInfo)
    (h : info.is_complete = true) :
    ProgressReporter.notify now info = some info := by
  unfold ProgressReporter.notify
  rw [if_neg]
  intro hc
  exact hc.2 h

/-- C4: on any active-job table reachable by a sequence of reporter calls
from the empty table, `complete_job(id, success)` on a present job returns
a final record whose progress equals its total (100, so the terminal
`percent_complete` is 100 regardless of the last reported progress value),
whose stage is `complete` when `success` and `error` otherwise; the final
notification carrying exactly that record is sent, and immediately after
the call the id is absent from the table. -/
theorem c4_complete_job (ops : List ReporterOp) (now : ℚ) (id : String)
    (success : Bool) (msg : Option String) (md : Option (List (String × String)))
    (info : ProgressInfo)
    (h : (runOps ops []).1.getJob id = some info) :
    ∃ fin,
      (ProgressReporter.complete_job now (runOps ops []).1 id success msg md).result =
        some fin ∧
      fin.progress = fin.total ∧ fin.total = 100 ∧
      fin.stage = (if success then ProgressStage.complete else ProgressStage.error) ∧
      fin.percent_complete = 100 ∧
      (ProgressReporter.complete_job now (runOps ops []).1 id success msg md).notified =
        some fin ∧
      (ProgressReporter.complete_job now (runOps ops []).1 id success msg md).jobs.getJob
        id = none := by
  have htotals : TableTotals (runOps ops []).1 :=
    runOps_totals ops [] (by intro kv hkv; cases hkv)
  have hinfo100 : info.total = 100 := htotals (id, info) (getJob_mem h)
  obtain ⟨fin, heq, hstage, hprog, htot, hjid⟩ :=
    complete_job_eq now (runOps ops []).1 id success msg md info h
  have hfintot : fin.total = 100 := by rw [htot, hinfo100]
  have hfinprog : fin.progress = fin.total := by rw [hprog, htot]
  have hterm : fin.is_complete = true := by
    unfold ProgressInfo.is_complete
    rw [hstage]
    cases success <;> decide
  refine ⟨fin, ?_, hfinprog, hfintot, hstage, ?_, ?_, ?_⟩
  · rw [heq]
  · unfold ProgressInfo.percent_complete
    rw [if_neg (by rw [hfintot]; norm_num)]
    rw [hfinprog, hfintot]
    norm_num
  · rw [heq]
    show ProgressReporter.notify now fin = some fin
    exact notify_of_terminal now fin hterm
  · rw [heq]
    exact getJob_removeJob_self _ id

/-- C4 witness: completing a started job (last reported progress 40) on a
concrete reachable table. -/
theorem c4_complete_job_witness :
    (runOps [ReporterOp.start 0 "j" "m" [],
             ReporterOp.update 0 "j" 40 none none none] []).1.getJob "j" =
      some ⟨"j", ProgressStage.init, 40, 100, "m", 0, []⟩ ∧
    ∃ fin,
      (ProgressReporter.complete_job 5
        (runOps [ReporterOp.start 0 "j" "m" [],
                 ReporterOp.update 0 "j" 40 none none none] []).1
        "j" true none none).result = some fin ∧
      fin.progress = fin.total ∧ fin.total = 100 ∧
      fin.stage = (if true then ProgressStage.complete else ProgressStage.error) ∧
      fin.percent_complete = 100 ∧
      (ProgressReporter.complete_job 5
        (runOps [ReporterOp.start 0 "j" "m" [],
                 ReporterOp.update 0 "j" 40 none none none] []).1
        "j" true none none).notified = some fin ∧
      (ProgressReporter.complete_job 5
        (runOps [ReporterOp.start 0 "j" "m" [],
                 ReporterOp.update 0 "j" 40 none none none] []).1
        "j" true none none).jobs.getJob "j" = none :=
  ⟨by decide,
   c4_complete_job [ReporterOp.start 0 "j" "m" [],
                    ReporterOp.update 0 "j" 40 none none none]
     5 "j" true none none ⟨"j", ProgressStage.init, 40, 100, "m", 0, []⟩ (by decide)⟩

/-- Every reporter operation keeps the table well-formed: records are stored
under their own `job_id` (`start_job` installs `job_id = id`, the other
operations never change the `job_id` field). -/
theorem applyOp_wf (op : ReporterOp) (jobs : JobTable) (h : TableWF jobs) :
    TableWF (applyOp op jobs).jobs := by
  cases op with
  | start now id msg md =>
    intro kv hkv
    rcases mem_setJob hkv with h1 | h2
    · subst h1; rfl
    · exact h kv h2
  | update now id p st msg md =>
    cases hj : jobs.getJob id with
    | none =>
      show TableWF (ProgressReporter.update_progress now jobs id p st msg md).jobs
      rw [c5_update_unknown_job now jobs id p st msg md hj]
      exact h
    | some info =>
      obtain ⟨info', heq, hstage, hjid, htot⟩ :=
        update_progress_eq now jobs id p st msg md info hj
      show TableWF (ProgressReporter.update_progress now jobs id p st msg md).jobs
      rw [heq]
      intro kv hkv
      rcases mem_setJob hkv with h1 | h2
      · subst h1
        show info'.job_id = id
        rw [hjid]
        exact h (id, info) (getJob_mem hj)
      · exact h kv h2
  | setStage now id s msg =>
    cases hj : jobs.getJob id with
    | none =>
      show TableWF (ProgressReporter.set_stage now jobs id s msg).jobs
      rw [set_stage_unknown now jobs id s msg hj]
      exact h
    | some info =>
      obtain ⟨info', heq, hstage, hjid, htot⟩ := set_stage_eq now jobs id s msg info hj
      show TableWF (ProgressReporter.set_stage now jobs id s msg).jobs
      rw [heq]
      intro kv hkv
      rcases mem_setJob hkv with h1 | h2
      · subst h1
        show info'.job_id = id
        rw [hjid]
        exact h (id, info) (getJob_mem hj)
      · exact h kv h2
  | complete now id success msg md =>
    cases hj : jobs.getJob id with
    | none =>
      show TableWF (ProgressReporter.complete_job now jobs id success msg md).jobs
      rw [complete_job_unknown now jobs id success msg md hj]
      exact h
    | some info =>
      obtain ⟨info', heq, hstage, hprog, htot, hjid⟩ :=
        complete_job_eq now jobs id success msg md info hj
      show TableWF (ProgressReporter.complete_job now jobs id success msg md).jobs
      rw [heq]
      intro kv hkv
      exact h kv (mem_removeJob hkv)

/-- `start_job`'s own notification is always suppressed: the record is
created with `start_time = now`, so 0 seconds have elapsed and the stage is
the non-terminal `INIT`. -/
theorem start_job_notified (now : ℚ) (jobs : JobTable) (id msg : String)
    (md : List (String × String)) :
    (ProgressReporter.start_job now jobs id msg md).notified = none := by
  show ProgressReporter.notify now _ = none
  unfold ProgressReporter.notify
  rw [if_pos]
  constructor
  · show now - now < ProgressReporter.MIN_PROGRESS_THRESHOLD
    rw [sub_self]
    norm_num [ProgressReporter.MIN_PROGRESS_THRESHOLD]
  · intro hc
    exact Bool.noConfusion hc

theorem terminalNotifications_append (id : String) (a b : List ProgressInfo) :
    terminalNotifications id (a ++ b) =
      terminalNotifications id a ++ terminalNotifications id b := by
  simp [terminalNotifications]

theorem terminalNotifications_of_notified (id : String) (o : Option ProgressInfo)
    (h : ∀ n, o = some n → (n.job_id == id && n.is_complete) = false) :
    terminalNotifications id o.toList = [] := by
  cases o with
  | none => rfl
  | some n =>
    show List.filter _ [n] = []
    rw [List.filter_cons]
    rw [if_neg (by rw [h n rfl]; simp)]
    rfl

theorem runOps_nil (jobs : JobTable) : runOps [] jobs = (jobs, []) := rfl

theorem runOps_cons (op : ReporterOp) (ops : List ReporterOp) (jobs : JobTable) :
    runOps (op :: ops) jobs =
      ((runOps ops (applyOp op jobs).jobs).1,
        (applyOp op jobs).notified.toList ++ (runOps ops (applyOp op jobs).jobs).2) :=
  rfl

theorem runOps_append (a b : List ReporterOp) (jobs : JobTable) :
    runOps (a ++ b) jobs =
      ((runOps b (runOps a jobs).1).1,
        (runOps a jobs).2 ++ (runOps b (runOps a jobs).1).2) := by
  induction a generalizing jobs with
  | nil => simp [runOps_nil]
  | cons op rest ih =>
    simp only [List.cons_append, runOps_cons, ih, List.append_assoc]

theorem notify_some {now : ℚ} {i n : ProgressInfo}
    (h : ProgressReporter.notify now i = some n) : n = i := by
  unfold ProgressReporter.notify at h
  split_ifs at h
  all_goals first
    | exact Option.noConfusion h
    | (injection h with h'; exact h'.symm)

/-- A benign call (for `job_id`) preserves "the job is absent or
non-terminal", preserves the job's presence, and emits no terminal
notification for that job. -/
theorem benign_step (id : String) (op : ReporterOp) (jobs : JobTable)
    (hb : benignFor id op = true) (hwf : TableWF jobs)
    (hnt : NonTerminalAt jobs id) :
    NonTerminalAt (applyOp op jobs).jobs id ∧
    ((jobs.getJob id).isSome = true →
      ((applyOp op jobs).jobs.getJob id).isSome = true) ∧
    terminalNotifications id (applyOp op jobs).notified.toList = [] := by
  cases op with
  | start now id' msg md =>
    refine ⟨?_, ?_, ?_⟩
    · show NonTerminalAt
        (jobs.setJob id' ⟨id', ProgressStage.init, 0, 100, msg, now, md⟩) id
      intro info h
      by_cases hid : id = id'
      · subst hid
        rw [getJob_setJob_self] at h
        injection h with h'
        rw [← h']
        rfl
      · rw [getJob_setJob_ne _ _ hid] at h
        exact hnt info h
    · intro hpre
      by_cases hid : id = id'
      · subst hid
        show ((jobs.setJob id _).getJob id).isSome = true
        rw [getJob_setJob_self]
        rfl
      · show ((jobs.setJob id' _).getJob id).isSome = true
        rw [getJob_setJob_ne _ _ hid]
        exact hpre
    · show terminalNotifications id
        (ProgressReporter.start_job now jobs id' msg md).notified.toList = []
      rw [start_job_notified]
      rfl
  | update now id' p st msg md =>
    have happ : applyOp (ReporterOp.update now id' p st msg md) jobs =
        ProgressReporter.update_progress now jobs id' p st msg md := rfl
    rw [happ]
    cases hj : jobs.getJob id' with
    | none =>
      rw [c5_update_unknown_job now jobs id' p st msg md hj]
      exact ⟨hnt, fun hpre => hpre, rfl⟩
    | some info0 =>
      obtain ⟨info', heq, hstage, hjid, htot⟩ :=
        update_progress_eq now jobs id' p st msg md info0 hj
      rw [heq]
      by_cases hid : id' = id
      · subst hid
        have hterm : info'.is_complete = false := by
          show (info'.stage == ProgressStage.complete ||
            info'.stage == ProgressStage.error) = false
          rw [hstage]
          cases st with
          | none => exact hnt info0 hj
          | some s =>
            simp only [benignFor] at hb
            simpa using hb
        refine ⟨?_, ?_, ?_⟩
        · show NonTerminalAt (jobs.setJob id' info') id'
          intro info h
          rw [getJob_setJob_self] at h
          injection h with h'
          rw [← h']
          exact hterm
        · intro hpre
          show ((jobs.setJob id' info').getJob id').isSome = true
          rw [getJob_setJob_self]
          rfl
        · show terminalNotifications id'
            (ProgressReporter.notify now info').toList = []
          apply terminalNotifications_of_notified
          intro n hn
          rw [notify_some hn, hterm]
          simp
      · have hne : id ≠ id' := fun he => hid he.symm
        refine ⟨?_, ?_, ?_⟩
        · show NonTerminalAt (jobs.setJob id' info') id
          intro info h
          rw [getJob_setJob_ne _ _ hne] at h
          exact hnt info h
        · intro hpre
          show ((jobs.setJob id' info').getJob id).isSome = true
          rw [getJob_setJob_ne _ _ hne]
          exact hpre
        · show terminalNotifications id
            (ProgressReporter.notify now info').toList = []
          apply terminalNotifications_of_notified
          intro n hn
          have hnid : n.job_id = id' := by
            rw [notify_some hn, hjid]
            exact hwf (id', info0) (getJob_mem hj)
          rw [hnid, beq_false_of_ne hid]
          rfl
  | setStage now id' s msg =>
    have happ : applyOp (ReporterOp.setStage now id' s msg) jobs =
        ProgressReporter.set_stage now jobs id' s msg := rfl
    rw [happ]
    cases hj : jobs.getJob id' with
    | none =>
      rw [set_stage_unknown now jobs id' s msg hj]
      exact ⟨hnt, fun hpre => hpre, rfl⟩
    | some info0 =>
      obtain ⟨info', heq, hstage, hjid, htot⟩ := set_stage_eq now jobs id' s msg info0 hj
      rw [heq]
      by_cases hid : id' = id
      · subst hid
        have hterm : info'.is_complete = false := by
          show (info'.stage == ProgressStage.complete ||
            info'.stage == ProgressStage.error) = false
          rw [hstage]
          simp only [benignFor] at hb
          simpa using hb
        refine ⟨?_, ?_, ?_⟩
        · show NonTerminalAt (jobs.setJob id' info') id'
          intro info h
          rw [getJob_setJob_self] at h
          injection h with h'
          rw [← h']
          exact hterm
        · intro hpre
          show ((jobs.setJob id' info').getJob id').isSome = true
          rw [getJob_setJob_self]
          rfl
        · show terminalNotifications id'
            (ProgressReporter.notify now info').toList = []
          apply terminalNotifications_of_notified
          intro n hn
          rw [notify_some hn, hterm]
          simp
      · have hne : id ≠ id' := fun he => hid he.symm
        refine ⟨?_, ?_, ?_⟩
        · show NonTerminalAt (jobs.setJob id' info') id
          intro info h
          rw [getJob_setJob_ne _ _ hne] at h
          exact hnt info h
        · intro hpre
          show ((jobs.setJob id' info').getJob id).isSome = true
          rw [getJob_setJob_ne _ _ hne]
          exact hpre
        · show terminalNotifications id
            (ProgressReporter.notify now info').toList = []
          apply terminalNotifications_of_notified
          intro n hn
          have hnid : n.job_id = id' := by
            rw [notify_some hn, hjid]
            exact hwf (id', info0) (getJob_mem hj)
          rw [hnid, beq_false_of_ne hid]
          rfl
  | complete now id' success msg md =>
    have hid : id' ≠ id := by
      simp only [benignFor] at hb
      simpa using hb
    have hne : id ≠ id' := fun he => hid he.symm
    have happ : applyOp (ReporterOp.complete now id' success msg md) jobs =
        ProgressReporter.complete_job now jobs id' success msg md := rfl
    rw [happ]
    cases hj : jobs.getJob id' with
    | none =>
      rw [complete_job_unknown now jobs id' success msg md hj]
      exact ⟨hnt, fun hpre => hpre, rfl⟩
    | some info0 =>
      obtain ⟨info', heq, hstage, hprog, htot, hjid⟩ :=
        complete_job_eq now jobs id' success msg md info0 hj
      rw [heq]
      refine ⟨?_, ?_, ?_⟩
      · show NonTerminalAt (jobs.removeJob id') id
        intro info h
        rw [getJob_removeJob_ne _ hne] at h
        exact hnt info h
      · intro hpre
        show ((jobs.removeJob id').getJob id).isSome = true
        rw [getJob_removeJob_ne _ hne]
        exact hpre
      · show terminalNotifications id
          (ProgressReporter.notify now info').toList = []
        apply terminalNotifications_of_notified
        intro n hn
        have hnid : n.job_id = id' := by
          rw [notify_some hn, hjid]
          exact hwf (id', info0) (getJob_mem hj)
        rw [hnid, beq_false_of_ne hid]
        rfl

theorem benign_run (id : String) (ops : List ReporterOp) (jobs : JobTable)
    (hb : ∀ op ∈ ops, benignFor id op = true) (hwf : TableWF jobs)
    (hnt : NonTerminalAt jobs id) :
    TableWF (runOps ops jobs).1 ∧ NonTerminalAt (runOps ops jobs).1 id ∧
    ((jobs.getJob id).isSome = true →
      (((runOps ops jobs).1).getJob id).isSome = true) ∧
    terminalNotifications id (runOps ops jobs).2 = [] := by
  induction ops generalizing jobs with
  | nil => exact ⟨hwf, hnt, fun h => h, rfl⟩
  | cons op rest ih =>
    have hstep := benign_step id op jobs (hb op (List.mem_cons_self op rest)) hwf hnt
    have hwf' := applyOp_wf op jobs hwf
    have hrest := ih (applyOp op jobs).jobs
      (fun o ho => hb o (List.mem_cons_of_mem op ho)) hwf' hstep.1
    rw [runOps_cons]
    refine ⟨hrest.1, hrest.2.1, ?_, ?_⟩
    · intro hpre
      exact hrest.2.2.1 (hstep.2.1 hpre)
    · show terminalNotifications id
        ((applyOp op jobs).notified.toList ++ (runOps rest (applyOp op jobs).jobs).2) = []
      rw [terminalNotifications_append, hstep.2.2, hrest.2.2.2]
      rfl

theorem start_job_present (now : ℚ) (jobs : JobTable) (id msg : String)
    (md : List (String × String)) :
    ((ProgressReporter.start_job now jobs id msg md).jobs.getJob id).isSome = true := by
  show ((jobs.setJob id _).getJob id).isSome = true
  rw [getJob_setJob_self]
  rfl

/-- C3 (counterexample): in the trace `start_job("j")`,
`set_stage("j", COMPLETE)`, `complete_job("j", success)` — a job whose
`start_job` is paired with a `complete_job` — the caller observes two
terminal notifications, not exactly one: the `set_stage` to a terminal
stage is never suppressed and is followed by `complete_job`'s own terminal
notification. -/
theorem c3_counterexample :
    (terminalNotifications "j" (runOps
      [ReporterOp.start 0 "j" "m" [],
       ReporterOp.setStage 0 "j" ProgressStage.complete none,
       ReporterOp.complete 0 "j" true none none] []).2).length = 2 := by
  norm_num [runOps, applyOp, ProgressReporter.start_job, ProgressReporter.set_stage,
    ProgressReporter.complete_job, ProgressReporter.notify, ProgressInfo.elapsed_seconds,
    ProgressInfo.is_complete, ProgressReporter.MIN_PROGRESS_THRESHOLD,
    JobTable.setJob, JobTable.getJob, JobTable.removeJob, List.lookup,
    terminalNotifications, List.filter, dictUpdate]
  decide

/-- C3 (amended): a notification is suppressed if and only if less than
`MIN_PROGRESS_THRESHOLD` (1 second) has elapsed since the job started and
the job is not in a terminal stage. Consequently, in every trace in which a
job's `start_job` is paired with a `complete_job` and every other operation
is benign for that job — it is not another `complete_job` for the job and
does not install a terminal stage on it via `update_progress`/`set_stage` —
the caller observes exactly one terminal notification for that job. -/
theorem c3_notification_throttling :
    (∀ (now : ℚ) (info : ProgressInfo),
      ProgressReporter.notify now info = none ↔
        (info.elapsed_seconds now < ProgressReporter.MIN_PROGRESS_THRESHOLD ∧
         info.is_complete = false)) ∧
    (∀ (id : String) (pre mids post : List ReporterOp) (t0 t1 : ℚ)
        (m : String) (md : List (String × String)) (succ : Bool)
        (m2 : Option String) (md2 : Option (List (String × String))),
      (∀ op ∈ pre, benignFor id op = true) →
      (∀ op ∈ mids, benignFor id op = true) →
      (∀ op ∈ post, benignFor id op = true) →
      (terminalNotifications id
        (runOps (pre ++ ReporterOp.start t0 id m md ::
          (mids ++ ReporterOp.complete t1 id succ m2 md2 :: post)) []).2).length = 1) := by
  constructor
  · intro now info
    unfold ProgressReporter.notify
    split_ifs with hc
    · exact iff_of_true rfl ⟨hc.1, by simpa using hc.2⟩
    · refine iff_of_false (by simp) ?_
      rintro ⟨h1, h2⟩
      exact hc ⟨h1, by simp [h2]⟩
  · intro id pre mids post t0 t1 m md succ m2 md2 hpre hmids hpost
    rw [runOps_append, runOps_cons, runOps_append, runOps_cons]
    simp only [terminalNotifications_append, List.length_append]
    have h0wf : TableWF ([] : JobTable) := by intro kv hkv; cases hkv
    have h0nt : NonTerminalAt ([] : JobTable) id := by
      intro info h
      exact Option.noConfusion h
    obtain ⟨hwf1, hnt1, -, htn1⟩ := benign_run id pre [] hpre h0wf h0nt
    have hstart := benign_step id (ReporterOp.start t0 id m md) (runOps pre []).1
      rfl hwf1 hnt1
    have hwf2 : TableWF (applyOp (ReporterOp.start t0 id m md) (runOps pre []).1).jobs :=
      applyOp_wf _ _ hwf1
    have hpres2 : (((applyOp (ReporterOp.start t0 id m md)
        (runOps pre []).1).jobs).getJob id).isSome = true :=
      start_job_present t0 (runOps pre []).1 id m md
    obtain ⟨hwf3, hnt3, hpres3f, htn3⟩ :=
      benign_run id mids _ hmids hwf2 hstart.1
    obtain ⟨info1, hj3⟩ := Option.isSome_iff_exists.mp (hpres3f hpres2)
    obtain ⟨fin, heq4, hstage4, hprog4, htot4, hjid4⟩ :=
      complete_job_eq t1 _ id succ m2 md2 info1 hj3
    have hfin_term : fin.is_complete = true := by
      unfold ProgressInfo.is_complete
      rw [hstage4]
      cases succ <;> decide
    have hfin_id : fin.job_id = id := by
      rw [hjid4]
      exact hwf3 (id, info1) (getJob_mem hj3)
    have happ4 : applyOp (ReporterOp.complete t1 id succ m2 md2)
        (runOps mids (applyOp (ReporterOp.start t0 id m md) (runOps pre []).1).jobs).1 =
        ProgressReporter.complete_job t1
          (runOps mids (applyOp (ReporterOp.start t0 id m md) (runOps pre []).1).jobs).1
          id succ m2 md2 := rfl
    have htn4 : terminalNotifications id
        ((applyOp (ReporterOp.complete t1 id succ m2 md2)
          (runOps mids (applyOp (ReporterOp.start t0 id m md)
            (runOps pre []).1).jobs).1).notified.toList) = [fin] := by
      rw [happ4, heq4]
      show terminalNotifications id (ProgressReporter.notify t1 fin).toList = [fin]
      rw [notify_of_terminal t1 fin hfin_term]
      show List.filter _ [fin] = [fin]
      rw [List.filter_cons, if_pos (by rw [hfin_id, hfin_term]; simp)]
      rfl
    have hnt4 : NonTerminalAt (applyOp (ReporterOp.complete t1 id succ m2 md2)
        (runOps mids (applyOp (ReporterOp.start t0 id m md)
          (runOps pre []).1).jobs).1).jobs id := by
      rw [happ4, heq4]
      intro info h
      rw [getJob_removeJob_self] at h
      exact Option.noConfusion h
    have hwf4 : TableWF (applyOp (ReporterOp.complete t1 id succ m2 md2)
        (runOps mids (applyOp (ReporterOp.start t0 id m md)
          (runOps pre []).1).jobs).1).jobs :=
      applyOp_wf _ _ hwf3
    obtain ⟨-, -, -, htn5⟩ := benign_run id post _ hpost hwf4 hnt4
    rw [htn1, hstart.2.2, htn3, htn4, htn5]
    rfl

/-- C3 witness: a paired start/complete trace with one benign intermediate
update yields exactly one terminal notification. -/
theorem c3_notification_throttling_witness :
    (terminalNotifications "j"
      (runOps (([] : List ReporterOp) ++ ReporterOp.start 0 "j" "m" [] ::
        ([ReporterOp.update 1 "j" 50 none none none] ++
          ReporterOp.complete 2 "j" true none none :: ([] : List ReporterOp))) []).2).length
      = 1 :=
  c3_notification_throttling.2 "j" [] [ReporterOp.update 1 "j" 50 none none none] []
    0 2 "m" [] true none none (by decide) (by decide) (by decide)

theorem runningCount_replicate_waiting (N : Nat) :
    ((List.replicate N TaskPhase.waiting).filter
      (fun t => t == TaskPhase.running)).length = 0 := by
  induction N with
  | zero => rfl
  | succ n ih =>
    rw [List.replicate_succ, List.filter_cons, if_neg (by decide)]
    exact ih

theorem runningCount_acquire {l : List TaskPhase} {i : Nat}
    (h : l.get? i = some TaskPhase.waiting) :
    ((l.set i TaskPhase.running).filter (fun t => t == TaskPhase.running)).length =
      (l.filter (fun t => t == TaskPhase.running)).length + 1 := by
  have hwr : (TaskPhase.waiting == TaskPhase.running) = false := by decide
  have hrr : (TaskPhase.running == TaskPhase.running) = true := by decide
  induction l generalizing i with
  | nil => exact Option.noConfusion h
  | cons a l' ih =>
    cases i with
    | zero =>
      injection h with h'
      subst h'
      simp [List.filter_cons, hwr, hrr]
    | succ i' =>
      have hrec := ih (i := i') h
      cases ha : (a == TaskPhase.running) <;>
        simp [List.filter_cons, ha] <;> omega

theorem runningCount_release {l : List TaskPhase} {i : Nat}
    (h : l.get? i = some TaskPhase.running) :
    ((l.set i TaskPhase.done).filter (fun t => t == TaskPhase.running)).length + 1 =
      (l.filter (fun t => t == TaskPhase.running)).length := by
  have hdr : (TaskPhase.done == TaskPhase.running) = false := by decide
  have hrr : (TaskPhase.running == TaskPhase.running) = true := by decide
  induction l generalizing i with
  | nil => exact Option.noConfusion h
  | cons a l' ih =>
    cases i with
    | zero =>
      injection h with h'
      subst h'
      simp [List.filter_cons, hdr, hrr]
    | succ i' =>
      have hrec := ih (i := i') h
      cases ha : (a == TaskPhase.running) <;>
        simp [List.filter_cons, ha] <;> omega

/-- The semaphore invariant: available permits plus running conversions
always equal the configured capacity. -/
theorem limiter_invariant (K N : Nat) (s : LimiterState)
    (h : LimiterReachable K N s) : s.counter + s.runningCount = K := by
  induction h with
  | refl =>
    show K + (LimiterState.initial K N).runningCount = K
    unfold LimiterState.initial LimiterState.runningCount
    rw [runningCount_replicate_waiting]
    omega
  | tail hsteps hstep ih =>
    rename_i b c
    cases hstep with
    | acquire i hc ht =>
      show b.counter - 1 +
        ((b.tasks.set i TaskPhase.running).filter (fun t => t == TaskPhase.running)).length = K
      rw [runningCount_acquire ht]
      unfold LimiterState.runningCount at ih
      omega
    | release i ht =>
      show b.counter + 1 +
        ((b.tasks.set i TaskPhase.done).filter (fun t => t == TaskPhase.running)).length = K
      have := runningCount_release ht
      unfold LimiterState.runningCount at ih
      omega

/-- C8: in every state reachable from `N` conversions submitted against the
shared limiter of capacity `K` — all converter categories go through this
one limiter — the number of conversions simultaneously executing their
external work never exceeds `K`. -/
theorem c8_limiter_bound (K N : Nat) (s : LimiterState)
    (h : LimiterReachable K N s) : s.runningCount ≤ K := by
  have := limiter_invariant K N s h
  omega

/-- C8 witness: capacity 1, two submitted conversions, after one acquire the
running count is within the bound. -/
theorem c8_limiter_bound_witness :
    (LimiterState.mk 0 [TaskPhase.running, TaskPhase.waiting]).runningCount ≤ 1 :=
  c8_limiter_bound 1 2 ⟨0, [TaskPhase.running, TaskPhase.waiting]⟩
    (Relation.ReflTransGen.single
      (LimiterStep.acquire (LimiterState.initial 1 2) 0 (by decide) (by decide)))

theorem findAvailableName_found (ex : String → Bool) (stem fmt : String) :
    ∀ (fuel counter k : Nat), counter ≤ k → k ≤ 1000 → k < counter + fuel →
      (∀ j, counter ≤ j → j < k → ex (nameAt stem fmt j) = true) →
      ex (nameAt stem fmt k) = false →
      findAvailableName ex stem fmt counter fuel = some (nameAt stem fmt k) := by
  intro fuel
  induction fuel with
  | zero =>
    intro counter k hck hk hlt htaken hfree
    omega
  | succ fuel ih =>
    intro counter k hck hk hlt htaken hfree
    show (if ex (nameAt stem fmt counter) = false then some (nameAt stem fmt counter)
      else if counter + 1 > 1000 then none
      else findAvailableName ex stem fmt (counter + 1) fuel) = some (nameAt stem fmt k)
    by_cases hc : counter = k
    · subst hc
      rw [if_pos hfree]
    · have hlt2 : counter < k := by omega
      rw [if_neg (by rw [htaken counter (Nat.le_refl counter) hlt2]; simp)]
      rw [if_neg (by omega)]
      exact ih (counter + 1) k (by omega) hk (by omega)
        (fun j hj1 hj2 => htaken j (by omega) hj2) hfree

theorem findAvailableName_exhausted (ex : String → Bool) (stem fmt : String) :
    ∀ (fuel counter : Nat), 1 ≤ counter → counter + fuel = 1001 →
      (∀ j, counter ≤ j → j ≤ 1000 → ex (nameAt stem fmt j) = true) →
      findAvailableName ex stem fmt counter fuel = none := by
  intro fuel
  induction fuel with
  | zero =>
    intro counter h1 hsum htaken
    rfl
  | succ fuel ih =>
    intro counter h1 hsum htaken
    show (if ex (nameAt stem fmt counter) = false then some (nameAt stem fmt counter)
      else if counter + 1 > 1000 then none
      else findAvailableName ex stem fmt (counter + 1) fuel) = none
    have hcle : counter ≤ 1000 := by omega
    rw [if_neg (by rw [htaken counter (Nat.le_refl counter) hcle]; simp)]
    by_cases hg : counter + 1 > 1000
    · rw [if_pos hg]
    · rw [if_neg hg]
      exact ih (counter + 1) (by omega) (by omega)
        (fun j hj1 hj2 => htaken j (by omega) hj2)

/-- C9: for an existing source file and a non-empty target format,
`resolve_output_path` places the output in the configured directory (the
source file's own directory when none is configured); it returns
`{stem}.{fmt}` when that name is free, otherwise the first free
`{stem}_{k}.{fmt}` for k = 1, 2, …, and fails with `FileOperationError`
once all 1000 collision candidates are taken; a missing source file is
rejected. -/
theorem c9_resolve_output_path (output_dir : Option String)
    (parent stem target_format : String) (ex : String → Bool)
    (hne : target_format ≠ "")
    (hfmt : pyStrip (pyLower target_format) ≠ "") :
    (ex (stem ++ "." ++ pyStrip (pyLower target_format)) = false →
      resolve_output_path output_dir parent stem true true target_format ex =
        ResolveResult.ok (match output_dir with | some d => d | none => parent)
          (stem ++ "." ++ pyStrip (pyLower target_format))) ∧
    (∀ k, 1 ≤ k → k ≤ 1000 →
      ex (stem ++ "." ++ pyStrip (pyLower target_format)) = true →
      (∀ j, 1 ≤ j → j < k →
        ex (nameAt stem (pyStrip (pyLower target_format)) j) = true) →
      ex (nameAt stem (pyStrip (pyLower target_format)) k) = false →
      resolve_output_path output_dir parent stem true true target_format ex =
        ResolveResult.ok (match output_dir with | some d => d | none => parent)
          (nameAt stem (pyStrip (pyLower target_format)) k)) ∧
    (ex (stem ++ "." ++ pyStrip (pyLower target_format)) = true →
      (∀ j, 1 ≤ j → j ≤ 1000 →
        ex (nameAt stem (pyStrip (pyLower target_format)) j) = true) →
      resolve_output_path output_dir parent stem true true target_format ex =
        ResolveResult.fileOperationError "Too many file collisions") ∧
    (resolve_output_path output_dir parent stem false true target_format ex =
      ResolveResult.fileOperationError "Source file does not exist") := by
  have hbody : resolve_output_path output_dir parent stem true true target_format ex =
      (if ex (stem ++ "." ++ pyStrip (pyLower target_format)) = false then
        ResolveResult.ok (match output_dir with | some d => d | none => parent)
          (stem ++ "." ++ pyStrip (pyLower target_format))
      else
        match findAvailableName ex stem (pyStrip (pyLower target_format)) 1 1000 with
        | some name =>
            ResolveResult.ok (match output_dir with | some d => d | none => parent) name
        | none => ResolveResult.fileOperationError "Too many file collisions") := by
    simp only [resolve_output_path]
    rw [if_neg (fun h => Bool.noConfusion h), if_neg (fun h => Bool.noConfusion h),
      if_neg hne, if_neg hfmt]
  refine ⟨?_, ?_, ?_, ?_⟩
  · intro hfree
    rw [hbody, if_pos hfree]
  · intro k hk1 hk2 hbase htaken hfree
    rw [hbody, if_neg (by rw [hbase]; simp)]
    rw [findAvailableName_found ex stem (pyStrip (pyLower target_format)) 1000 1 k
      hk1 hk2 (by omega) (fun j hj1 hj2 => htaken j hj1 hj2) hfree]
  · intro hbase htaken
    rw [hbody, if_neg (by rw [hbase]; simp)]
    rw [findAvailableName_exhausted ex stem (pyStrip (pyLower target_format)) 1000 1
      (Nat.le_refl 1) (by omega) (fun j hj1 hj2 => htaken j hj1 hj2)]
  · simp [resolve_output_path]

/-- C9 witness: with `a.pdf` present, source `a.txt` converting to `pdf`
resolves to `a_1.pdf`; with `a.pdf` and `a_1.pdf` present, to `a_2.pdf`
(output directed to the source file's own directory). -/
theorem c9_resolve_output_path_witness :
    resolve_output_path none "/d" "a" true true "pdf"
        (fun n => n == "a.pdf") = ResolveResult.ok "/d" "a_1.pdf" ∧
    resolve_output_path none "/d" "a" true true "pdf"
        (fun n => n == "a.pdf" || n == "a_1.pdf") = ResolveResult.ok "/d" "a_2.pdf" :=
  ⟨(c9_resolve_output_path none "/d" "a" "pdf" (fun n => n == "a.pdf")
      (by decide) (by decide)).2.1 1 (by decide) (by decide) (by decide)
      (by intro j h1 h2; omega) (by decide),
   (c9_resolve_output_path none "/d" "a" "pdf" (fun n => n == "a.pdf" || n == "a_1.pdf")
      (by decide) (by decide)).2.1 2 (by decide) (by decide) (by decide)
      (by
        intro j h1 h2
        have hj : j = 1 := by omega
        subst hj
        decide)
      (by decide)⟩
